import Mathlib

/-!
Verification of the salary-dashboard pipeline of `src/app.py`.

The program is a linear pipeline: load a CSV table, validate its schema,
coerce column types, sanitize the text columns, filter by four sidebar
selections, and aggregate the filtered view.  All of it is embedded here as
pure functions over lists of records; floats are modelled as rationals.
-/

/-- Whitespace test used by the strip step (Python `str.strip`), modelled
with Lean's character whitespace test, which covers the whitespace
characters occurring in the data. -/
def isSpace (c : Char) : Bool := c.isWhitespace

/-- `.str.replace(r"[<>]", "", regex=True)` on one cell: drop every literal
`<` and `>` character. -/
def removeAngles (l : List Char) : List Char :=
  l.filter (fun c => !(c == '<' || c == '>'))

/-- Python `str.strip()` on one cell: drop leading and trailing whitespace. -/
def stripChars (l : List Char) : List Char :=
  ((l.dropWhile isSpace).reverse.dropWhile isSpace).reverse

/-- The sanitization chain applied by `carregar_dados` (src/app.py lines
59-66) to one cell: `.str.slice(0, 100)`, then the `[<>]` removal, then
`.str.strip()`. -/
def sanitizeChars (l : List Char) : List Char :=
  stripChars (removeAngles (l.take 100))

/-- The same chain on a `String` value. -/
def sanitize (s : String) : String := ⟨sanitizeChars s.data⟩

/-- Python `str.strip()` on a `String` value. -/
def pyStrip (s : String) : String := ⟨stripChars s.data⟩

/-- The invariant the spec states for a sanitized text value: at most 100
characters, no angle brackets, and equal to its own stripped form. -/
def SanitizedStr (s : String) : Prop :=
  s.length ≤ 100 ∧ (∀ c ∈ s.data, c ≠ '<' ∧ c ≠ '>') ∧ pyStrip s = s

theorem dropWhile_head_false {α : Type} {p : α → Bool} {l : List α} {a : α}
    {t : List α} (h : l.dropWhile p = a :: t) : p a = false := by
  have hh := List.head?_dropWhile_not p l
  rw [h] at hh
  exact hh

theorem dropWhile_eq_self_of_head {α : Type} {p : α → Bool} {l : List α}
    (h : ∀ a t, l = a :: t → p a = false) : l.dropWhile p = l := by
  cases l with
  | nil => rfl
  | cons x xs => simp [List.dropWhile_cons, h x xs rfl]

theorem dropWhile_dropWhile {α : Type} (p : α → Bool) (l : List α) :
    (l.dropWhile p).dropWhile p = l.dropWhile p := by
  apply dropWhile_eq_self_of_head
  intro a t h
  exact dropWhile_head_false h

theorem getLast?_of_suffix {α : Type} {l w : List α} (h : l <:+ w)
    (hne : l ≠ []) : l.getLast? = w.getLast? := by
  obtain ⟨u, rfl⟩ := h
  rw [List.getLast?_append]
  cases hl : l.getLast? with
  | none => exact absurd (List.getLast?_eq_none_iff.mp hl) hne
  | some a => rfl

theorem head_stripChars_false {l : List Char} {a : Char} {t : List Char}
    (h : stripChars l = a :: t) : isSpace a = false := by
  unfold stripChars at h
  have hzne : (l.dropWhile isSpace).reverse.dropWhile isSpace ≠ [] := by
    intro h0
    rw [h0] at h
    simp at h
  have h1 : ((l.dropWhile isSpace).reverse.dropWhile isSpace).getLast?
      = (l.dropWhile isSpace).head? := by
    rw [getLast?_of_suffix (List.dropWhile_suffix _) hzne, List.getLast?_reverse]
  have h2 : ((l.dropWhile isSpace).reverse.dropWhile isSpace).reverse.head?
      = some a := by rw [h]; rfl
  rw [List.head?_reverse, h1] at h2
  cases hy : l.dropWhile isSpace with
  | nil => rw [hy] at h2; simp at h2
  | cons b bs =>
    rw [hy] at h2
    simp only [List.head?_cons, Option.some.injEq] at h2
    subst h2
    exact dropWhile_head_false hy

theorem stripChars_idem (l : List Char) :
    stripChars (stripChars l) = stripChars l := by
  have hdrop : (stripChars l).dropWhile isSpace = stripChars l := by
    apply dropWhile_eq_self_of_head
    intro a t h
    exact head_stripChars_false h
  calc stripChars (stripChars l)
      = (((stripChars l).dropWhile isSpace).reverse.dropWhile isSpace).reverse := rfl
    _ = ((stripChars l).reverse.dropWhile isSpace).reverse := by rw [hdrop]
    _ = stripChars l := by
        show ((((l.dropWhile isSpace).reverse.dropWhile isSpace).reverse).reverse.dropWhile
            isSpace).reverse = _
        rw [List.reverse_reverse, dropWhile_dropWhile]
        rfl

theorem stripChars_length_le (l : List Char) :
    (stripChars l).length ≤ l.length := by
  unfold stripChars
  rw [List.length_reverse]
  calc ((l.dropWhile isSpace).reverse.dropWhile isSpace).length
      ≤ (l.dropWhile isSpace).reverse.length :=
        (List.dropWhile_suffix _).sublist.length_le
    _ = (l.dropWhile isSpace).length := List.length_reverse _
    _ ≤ l.length := (List.dropWhile_suffix _).sublist.length_le

theorem stripChars_subset (l : List Char) : stripChars l ⊆ l := by
  intro c hc
  unfold stripChars at hc
  rw [List.mem_reverse] at hc
  have hc2 := (List.dropWhile_suffix (l := (l.dropWhile isSpace).reverse) isSpace).subset hc
  rw [List.mem_reverse] at hc2
  exact (List.dropWhile_suffix isSpace).subset hc2

theorem sanitize_sanitized (s : String) : SanitizedStr (sanitize s) := by
  refine ⟨?_, ?_, ?_⟩
  · show (sanitizeChars s.data).length ≤ 100
    calc (sanitizeChars s.data).length
        ≤ (removeAngles (s.data.take 100)).length := stripChars_length_le _
      _ ≤ (s.data.take 100).length := List.length_filter_le _ _
      _ ≤ 100 := by rw [List.length_take]; exact min_le_left _ _
  · intro c hc
    have hc2 : c ∈ removeAngles (s.data.take 100) := stripChars_subset _ hc
    unfold removeAngles at hc2
    rw [List.mem_filter] at hc2
    have := hc2.2
    simp only [Bool.not_eq_true', Bool.or_eq_false_iff, beq_eq_false_iff_ne] at this
    exact this
  · apply String.ext
    show stripChars (sanitizeChars s.data) = sanitizeChars s.data
    unfold sanitizeChars
    exact stripChars_idem _

/-- One salary observation, after validation and sanitization (the eight
columns of `COLUNAS_ESPERADAS` in src/app.py; `usd` is a float, modelled as
a rational). -/
structure Record where
  ano : Int
  senioridade : String
  contrato : String
  tamanho_empresa : String
  cargo : String
  usd : ℚ
  remoto : String
  residencia_iso3 : String
deriving DecidableEq

/-- One sidebar filter selection: the allowed values chosen in each of the
four multiselect widgets (src/app.py lines 83-99). -/
structure Selection where
  anos : List Int
  senioridades : List String
  contratos : List String
  tamanhos : List String
deriving DecidableEq

/-- src/app.py lines 104-109: the filtered view, a conjunction of four
`isin` membership tests over the dataset. -/
def df_filtrado (df : List Record) (s : Selection) : List Record :=
  df.filter (fun r =>
    decide (r.ano ∈ s.anos) && decide (r.senioridade ∈ s.senioridades) &&
    decide (r.contrato ∈ s.contratos) && decide (r.tamanho_empresa ∈ s.tamanhos))

/-- `Series.mean()` of the `usd` column of a view (0/0 = 0 never arises in
the program: every call site guards against an empty series). -/
def meanUsd (view : List Record) : ℚ :=
  (view.map Record.usd).sum / (view.length : ℚ)

/-- `Series.max()` of the `usd` column of a view. -/
def maxUsd (view : List Record) : ℚ :=
  ((view.map Record.usd).max?).getD 0

/-- Number of records of a view whose `cargo` equals `c`. -/
def countCargo (view : List Record) (c : String) : Nat :=
  (view.filter (fun r => r.cargo == c)).length

/-- Code-point lexicographic comparison of two character lists — the order
numpy/pandas uses on the dataset's ASCII keys. -/
def strLeB : List Char → List Char → Bool
  | [], _ => true
  | _ :: _, [] => false
  | a :: as, b :: bs =>
    if a.toNat < b.toNat then true
    else if b.toNat < a.toNat then false
    else strLeB as bs

/-- Code-point lexicographic order on strings. -/
def strLe (a b : String) : Prop := strLeB a.data b.data = true

instance : DecidableRel strLe :=
  fun a b => inferInstanceAs (Decidable (strLeB a.data b.data = true))

/-- Ascending sort of a list of strings (pandas sorts group keys and `mode`
results ascending). -/
def sortStrings (l : List String) : List String :=
  List.insertionSort strLe l

/-- `df_filtrado["cargo"].mode().iloc[0]` (src/app.py line 129): pandas
`mode` lists the most frequent values in ascending order and `.iloc[0]`
takes the first; only ever evaluated on a non-empty view. -/
def modeCargo (view : List Record) : String :=
  let keys := sortStrings ((view.map Record.cargo).dedup)
  let mx := (keys.map (countCargo view)).max?.getD 0
  match (keys.filter (fun c => countCargo view c == mx)).head? with
  | some c => c
  | none => ""

/-- src/app.py lines 125-132: the four KPI values (mean salary, max salary,
record count, most frequent role), with the empty-view guard of the code. -/
def kpis (view : List Record) : ℚ × ℚ × Nat × String :=
  if view.isEmpty then (0, 0, 0, "—")
  else (meanUsd view, maxUsd view, view.length, modeCargo view)

/-- Ordering of `(cargo, mean)` pairs by ascending mean. -/
def bySndLE (p q : String × ℚ) : Prop := p.2 ≤ q.2

/-- Ordering of `(cargo, mean)` pairs by descending mean. -/
def bySndGE (p q : String × ℚ) : Prop := q.2 ≤ p.2

instance : DecidableRel bySndLE :=
  fun p q => inferInstanceAs (Decidable (p.2 ≤ q.2))

instance : DecidableRel bySndGE :=
  fun p q => inferInstanceAs (Decidable (q.2 ≤ p.2))

instance : IsTotal (String × ℚ) bySndLE :=
  ⟨fun p q => le_total p.2 q.2⟩

instance : IsTrans (String × ℚ) bySndLE :=
  ⟨fun _ _ _ h1 h2 => le_trans h1 h2⟩

instance : IsTotal (String × ℚ) bySndGE :=
  ⟨fun p q => le_total q.2 p.2⟩

instance : IsTrans (String × ℚ) bySndGE :=
  ⟨fun _ _ _ h1 h2 => le_trans h2 h1⟩

def sortDescBySnd (l : List (String × ℚ)) : List (String × ℚ) :=
  List.insertionSort bySndGE l

def sortAscBySnd (l : List (String × ℚ)) : List (String × ℚ) :=
  List.insertionSort bySndLE l

/-- `view.groupby("cargo")["usd"].mean()` as a key-sorted association list
(pandas sorts group keys ascending). -/
def groupMeanCargo (view : List Record) : List (String × ℚ) :=
  (sortStrings ((view.map Record.cargo).dedup)).map
    (fun c => (c, meanUsd (view.filter (fun r => r.cargo == c))))

/-- src/app.py lines 150-157: top-10 roles by mean salary — computed only
when the view is non-empty; `.nlargest(10)` (stable descending sort, first
ten) then `.sort_values()` (ascending). -/
def top_cargos (view : List Record) : List (String × ℚ) :=
  if view.isEmpty then []
  else sortAscBySnd ((sortDescBySnd (groupMeanCargo view)).take 10)

/-- src/app.py line 197: the records of the view whose role is the fixed
string value. -/
def dsOnly (view : List Record) : List Record :=
  view.filter (fun r => r.cargo == "Data Scientist")

/-- src/app.py lines 196-203: mean `usd` grouped by `residencia_iso3` over
the Data-Scientist records of the view (empty when there are none). -/
def media_pais (view : List Record) : List (String × ℚ) :=
  (sortStrings (((dsOnly view).map Record.residencia_iso3).dedup)).map
    (fun c => (c, meanUsd ((dsOnly view).filter (fun r => r.residencia_iso3 == c))))

/-- One raw CSV cell, before type coercion (`vNull` is a missing value). -/
inductive CellValue where
  | vInt : Int → CellValue
  | vFloat : ℚ → CellValue
  | vStr : String → CellValue
  | vNull : CellValue
deriving DecidableEq

/-- Python `str()` of one cell, as applied by `.astype(str)` (the decimal
rendering of a float is modelled by the rational's rendering, which no
claim exercises; a missing value renders as the literal string "nan"). -/
def pyStr : CellValue → String
  | .vInt n => toString n
  | .vFloat q => toString q
  | .vStr s => s
  | .vNull => "nan"

/-- pandas `astype("int64", errors="raise")` on one cell: integers pass,
floats truncate toward zero, integer-literal strings parse, anything else
(including a missing value) raises. -/
def astypeInt64 : CellValue → Option Int
  | .vInt n => some n
  | .vFloat q => some (q.num.tdiv (q.den : Int))
  | .vStr s => s.toInt?
  | .vNull => none

/-- pandas `astype("float64", errors="raise")` on one cell.  A missing
value becomes the float NaN in pandas; NaN has no rational counterpart, so
the model treats it (and numeric-literal strings, which no claim exercises)
as a coercion failure. -/
def astypeFloat64 : CellValue → Option ℚ
  | .vInt n => some (n : ℚ)
  | .vFloat q => some q
  | .vStr _ => none
  | .vNull => none

/-- One raw CSV row: the eight expected cells. -/
structure RawRow where
  ano : CellValue
  senioridade : CellValue
  contrato : CellValue
  tamanho_empresa : CellValue
  cargo : CellValue
  usd : CellValue
  remoto : CellValue
  residencia_iso3 : CellValue
deriving DecidableEq

/-- A parsed CSV table: its column names and its rows. -/
structure RawTable where
  cols : List String
  rows : List RawRow
deriving DecidableEq

/-- The keys of `COLUNAS_ESPERADAS` (src/app.py lines 23-32). -/
def colunasEsperadas : List String :=
  ["ano", "senioridade", "contrato", "tamanho_empresa",
   "cargo", "usd", "remoto", "residencia_iso3"]

/-- The failures of `carregar_dados` relevant to the claims: the schema
check (line 47) and a type-coercion failure (line 51). -/
inductive LoadError where
  | schemaError : List String → LoadError
  | typeCoercionError : String → LoadError
deriving DecidableEq

/-- `set(COLUNAS_ESPERADAS) - set(df.columns)` (src/app.py line 46), kept
in the expected-column order. -/
def missingCols (t : RawTable) : List String :=
  colunasEsperadas.filter (fun c => decide (c ∉ t.cols))

/-- The record built from one raw row: `ano` and `usd` coerced (the
guard of `carregar_dados` has already ensured both succeed), the six text
cells passed through `.astype(str)` and the sanitization chain. -/
def buildRecord (r : RawRow) : Record :=
  { ano := (astypeInt64 r.ano).getD 0,
    senioridade := sanitize (pyStr r.senioridade),
    contrato := sanitize (pyStr r.contrato),
    tamanho_empresa := sanitize (pyStr r.tamanho_empresa),
    cargo := sanitize (pyStr r.cargo),
    usd := (astypeFloat64 r.usd).getD 0,
    remoto := sanitize (pyStr r.remoto),
    residencia_iso3 := sanitize (pyStr r.residencia_iso3) }

/-- src/app.py lines 41-73: schema validation, column type coercion in the
order of `COLUNAS_ESPERADAS` (`ano` first, then `usd`; the six object
columns never fail), then text sanitization.  Any failure yields an error
and no dataset. -/
def carregar_dados (t : RawTable) : Except LoadError (List Record) :=
  if missingCols t ≠ [] then .error (.schemaError (missingCols t))
  else if ¬ (t.rows.all (fun r => (astypeInt64 r.ano).isSome)) then
    .error (.typeCoercionError "ano")
  else if ¬ (t.rows.all (fun r => (astypeFloat64 r.usd).isSome)) then
    .error (.typeCoercionError "usd")
  else .ok (t.rows.map buildRecord)

/-- Spec step (1) of the Sanitizer: truncate to the first 100 characters. -/
def specTruncate (s : String) : String := ⟨s.data.take 100⟩

/-- Spec step (2) of the Sanitizer: remove all literal `<` and `>`
characters anywhere in the value. -/
def specRemoveAngles (s : String) : String :=
  ⟨s.data.filter (fun c => !(c == '<' || c == '>'))⟩

/-- Spec step (3) of the Sanitizer: strip leading and trailing
whitespace. -/
def specStrip (s : String) : String := ⟨stripChars s.data⟩

/-- A concrete record used by the witnesses. -/
def sampleRecord : Record :=
  { ano := 2025, senioridade := "Senior", contrato := "FT",
    tamanho_empresa := "M", cargo := "Data Scientist", usd := 100000,
    remoto := "remote", residencia_iso3 := "USA" }

/-- A second concrete record used by the witnesses. -/
def sampleRecord2 : Record :=
  { ano := 2024, senioridade := "Junior", contrato := "PT",
    tamanho_empresa := "S", cargo := "Engineer", usd := 90000,
    remoto := "hybrid", residencia_iso3 := "BRA" }

/-- A concrete two-record dataset used by the witnesses. -/
def sampleDf : List Record := [sampleRecord, sampleRecord2]

/-- A concrete filter selection allowing both sample records. -/
def sampleSelection : Selection :=
  { anos := [2024, 2025], senioridades := ["Junior", "Senior"],
    contratos := ["FT", "PT"], tamanhos := ["M", "S"] }

/-- A concrete filter selection whose year allow-set is empty. -/
def emptyAnoSelection : Selection :=
  { anos := [], senioridades := ["Junior"], contratos := ["FT"],
    tamanhos := ["M"] }

/-- C1: for every dataset and filter selection, the filtered view is a
subsequence of the dataset and every record in it has each filterable
field's value in that field's allowed set. -/
theorem c1_filtered_view_membership (df : List Record) (s : Selection) :
    (df_filtrado df s).Sublist df ∧
    ∀ r ∈ df_filtrado df s,
      r.ano ∈ s.anos ∧ r.senioridade ∈ s.senioridades ∧
      r.contrato ∈ s.contratos ∧ r.tamanho_empresa ∈ s.tamanhos := by
  refine ⟨List.filter_sublist df, ?_⟩
  intro r hr
  simp only [df_filtrado] at hr
  have h := (List.mem_filter.mp hr).2
  simp only [Bool.and_eq_true, decide_eq_true_eq] at h
  exact ⟨h.1.1.1, h.1.1.2, h.1.2, h.2⟩

theorem c1_filtered_view_membership_witness :
    (df_filtrado sampleDf sampleSelection).Sublist sampleDf :=
  (c1_filtered_view_membership sampleDf sampleSelection).1

/-- C5: a filter selection with an empty allow-set for at least one
filterable field produces an empty filtered view, whatever the other
allow-sets are. -/
theorem c5_empty_allow_set_empty_view (df : List Record) (s : Selection)
    (h : s.anos = [] ∨ s.senioridades = [] ∨ s.contratos = [] ∨
      s.tamanhos = []) :
    df_filtrado df s = [] := by
  simp only [df_filtrado]
  rw [List.filter_eq_nil_iff]
  intro r hr
  rcases h with h | h | h | h <;> simp [h]

theorem c5_empty_allow_set_empty_view_witness :
    emptyAnoSelection.anos = [] ∧
    df_filtrado sampleDf emptyAnoSelection = [] :=
  ⟨rfl, c5_empty_allow_set_empty_view sampleDf emptyAnoSelection (Or.inl rfl)⟩

/-- C6: filtering is idempotent — applying `df_filtrado` to an already
filtered view with the same selection returns that view unchanged. -/
theorem c6_filter_idempotent (df : List Record) (s : Selection) :
    df_filtrado (df_filtrado df s) s = df_filtrado df s := by
  show List.filter _ (df_filtrado df s) = df_filtrado df s
  apply List.filter_eq_self.mpr
  intro r hr
  exact (List.mem_filter.mp hr).2

/-- C3: on the empty filtered view the code's guards yield mean salary 0,
max salary 0, count 0 and the sentinel most-frequent role, the top-10
table is empty, and so is the per-country table; every aggregate here is a
total function, so none can raise. -/
theorem c3_empty_view_aggregates :
    kpis [] = (0, 0, 0, "—") ∧ top_cargos [] = [] ∧ media_pais [] = [] :=
  ⟨rfl, rfl, rfl⟩

theorem carregar_dados_ok_eq {t : RawTable} {recs : List Record}
    (h : carregar_dados t = .ok recs) : recs = t.rows.map buildRecord := by
  unfold carregar_dados at h
  split at h
  · exact absurd h (by simp)
  · split at h
    · exact absurd h (by simp)
    · split at h
      · exact absurd h (by simp)
      · simpa using h.symm

/-- A concrete raw row used by the witnesses (its `remoto` cell is a
missing value). -/
def sampleRow : RawRow :=
  { ano := .vInt 2025, senioridade := .vStr "  Senior  ",
    contrato := .vStr "FT", tamanho_empresa := .vStr "M",
    cargo := .vStr "Data Scientist", usd := .vFloat 100000,
    remoto := .vNull, residencia_iso3 := .vStr "USA" }

/-- A concrete raw table with all expected columns. -/
def sampleTable : RawTable :=
  { cols := colunasEsperadas, rows := [sampleRow] }

/-- A concrete raw table missing six expected columns. -/
def missingColsTable : RawTable :=
  { cols := ["ano", "usd"], rows := [] }

/-- C2: every text-column value of a successfully loaded table satisfies
the sanitization invariant — length at most 100, no angle brackets, and
equal to its own whitespace-stripped form. -/
theorem c2_loaded_text_sanitized (t : RawTable) (recs : List Record)
    (h : carregar_dados t = .ok recs) :
    ∀ r ∈ recs,
      SanitizedStr r.senioridade ∧ SanitizedStr r.contrato ∧
      SanitizedStr r.tamanho_empresa ∧ SanitizedStr r.cargo ∧
      SanitizedStr r.remoto ∧ SanitizedStr r.residencia_iso3 := by
  intro r hr
  rw [carregar_dados_ok_eq h] at hr
  obtain ⟨raw, -, rfl⟩ := List.mem_map.mp hr
  exact ⟨sanitize_sanitized _, sanitize_sanitized _, sanitize_sanitized _,
    sanitize_sanitized _, sanitize_sanitized _, sanitize_sanitized _⟩

theorem c2_loaded_text_sanitized_witness :
    SanitizedStr (buildRecord sampleRow).senioridade :=
  (c2_loaded_text_sanitized sampleTable (sampleTable.rows.map buildRecord)
    rfl (buildRecord sampleRow) (by simp [sampleTable])).1

/-- C8: a table missing at least one expected column makes the loader fail
with a schema error whose payload is exactly the set of missing expected
columns, and no dataset is returned for that pass. -/
theorem c8_missing_columns_schema_error (t : RawTable)
    (h : ∃ c ∈ colunasEsperadas, c ∉ t.cols) :
    ∃ missing, carregar_dados t = .error (.schemaError missing) ∧
      ∀ c, c ∈ missing ↔ (c ∈ colunasEsperadas ∧ c ∉ t.cols) := by
  have hne : missingCols t ≠ [] := by
    obtain ⟨c, hc, hnc⟩ := h
    intro h0
    have hmem : c ∈ missingCols t := by
      unfold missingCols
      rw [List.mem_filter]
      exact ⟨hc, by simpa using hnc⟩
    rw [h0] at hmem
    exact absurd hmem (List.not_mem_nil c)
  refine ⟨missingCols t, ?_, ?_⟩
  · unfold carregar_dados
    rw [if_pos hne]
  · intro c
    unfold missingCols
    rw [List.mem_filter]
    simp

theorem c8_missing_columns_schema_error_witness :
    ∃ missing,
      carregar_dados missingColsTable = .error (.schemaError missing) ∧
      ∀ c, c ∈ missing ↔
        (c ∈ colunasEsperadas ∧ c ∉ missingColsTable.cols) :=
  c8_missing_columns_schema_error missingColsTable
    ⟨"senioridade", by decide, by decide⟩

/-- C10: every record of a successfully loaded table takes each of its six
text fields from the corresponding raw cell of some row via Python `str()`
followed by the sanitization chain — so every text value is a string — and
a missing value stringifies to the literal string "nan". -/
theorem c10_text_fields_are_strings (t : RawTable) (recs : List Record)
    (h : carregar_dados t = .ok recs) :
    (∀ r ∈ recs, ∃ raw ∈ t.rows,
      r.senioridade = sanitize (pyStr raw.senioridade) ∧
      r.contrato = sanitize (pyStr raw.contrato) ∧
      r.tamanho_empresa = sanitize (pyStr raw.tamanho_empresa) ∧
      r.cargo = sanitize (pyStr raw.cargo) ∧
      r.remoto = sanitize (pyStr raw.remoto) ∧
      r.residencia_iso3 = sanitize (pyStr raw.residencia_iso3)) ∧
    pyStr CellValue.vNull = "nan" := by
  refine ⟨?_, rfl⟩
  intro r hr
  rw [carregar_dados_ok_eq h] at hr
  obtain ⟨raw, hraw, rfl⟩ := List.mem_map.mp hr
  exact ⟨raw, hraw, rfl, rfl, rfl, rfl, rfl, rfl⟩

theorem c10_text_fields_are_strings_witness :
    pyStr CellValue.vNull = "nan" :=
  (c10_text_fields_are_strings sampleTable (sampleTable.rows.map buildRecord)
    rfl).2

/-- The "Senior<script>" payload repeated to 150 characters. -/
def seniorPayload : String :=
  ⟨((List.replicate 11 ("Senior<script>".data)).flatten).take 150⟩

/-- C4: the sanitizer is exactly the composition of truncation to 100
characters, angle-bracket removal and whitespace stripping, in that order,
and on the 150-character "Senior<script>" payload it yields a string of at
most 100 characters with every angle bracket removed. -/
theorem c4_sanitizer_three_steps :
    (∀ s : String,
      sanitize s = specStrip (specRemoveAngles (specTruncate s))) ∧
    (sanitize seniorPayload).length ≤ 100 ∧
    ∀ c ∈ (sanitize seniorPayload).data, c ≠ '<' ∧ c ≠ '>' := by
  refine ⟨fun s => rfl, ?_, ?_⟩
  · exact (sanitize_sanitized seniorPayload).1
  · exact (sanitize_sanitized seniorPayload).2.1

theorem mem_groupMeanCargo {view : List Record} {p : String × ℚ}
    (hp : p ∈ groupMeanCargo view) :
    p.1 ∈ view.map Record.cargo ∧
    p.2 = meanUsd (view.filter (fun r => r.cargo == p.1)) := by
  obtain ⟨c, hc, rfl⟩ := List.mem_map.mp hp
  refine ⟨?_, rfl⟩
  simp only [sortStrings] at hc
  exact List.mem_dedup.mp ((List.perm_insertionSort _ _).mem_iff.mp hc)

theorem groupMeanCargo_complete {view : List Record} {c : String}
    (hc : c ∈ view.map Record.cargo) :
    (c, meanUsd (view.filter (fun r => r.cargo == c)))
      ∈ groupMeanCargo view := by
  apply List.mem_map.mpr
  refine ⟨c, ?_, rfl⟩
  simp only [sortStrings]
  exact (List.perm_insertionSort _ _).mem_iff.mpr (List.mem_dedup.mpr hc)

theorem pairwise_ne_groupMeanCargo (view : List Record) :
    (groupMeanCargo view).Pairwise (fun p q => p.1 ≠ q.1) := by
  have hkeys : (sortStrings ((view.map Record.cargo).dedup)).Nodup :=
    (List.perm_insertionSort strLe _).nodup_iff.mpr (List.nodup_dedup _)
  simp only [groupMeanCargo]
  exact List.pairwise_map.mpr hkeys

/-- C7: for a non-empty view the top-10 table lists exactly
`min 10 (number of distinct roles)` pairwise-distinct roles of the view —
so when at most ten roles occur, every one of them appears — each paired
with that role's mean salary over the view, in ascending order of mean,
and every role of the view absent from the table has a mean no greater
than any listed mean; together these say the table is precisely a set of
(at most 10) top-mean roles.  The empty view yields the empty table. -/
theorem c7_top_cargos_largest_means (view : List Record) (hne : view ≠ []) :
    (top_cargos view).length ≤ 10 ∧
    (top_cargos view).length =
      min 10 ((view.map Record.cargo).dedup).length ∧
    (top_cargos view).Pairwise (fun p q => p.1 ≠ q.1) ∧
    (∀ p ∈ top_cargos view, p.1 ∈ view.map Record.cargo ∧
      p.2 = meanUsd (view.filter (fun r => r.cargo == p.1))) ∧
    List.Sorted bySndLE (top_cargos view) ∧
    (∀ c ∈ (view.map Record.cargo).dedup,
      ((view.map Record.cargo).dedup).length ≤ 10 →
      ∃ p ∈ top_cargos view, p.1 = c) ∧
    (∀ c ∈ view.map Record.cargo, (∀ p ∈ top_cargos view, p.1 ≠ c) →
      ∀ p ∈ top_cargos view,
        meanUsd (view.filter (fun r => r.cargo == c)) ≤ p.2) ∧
    top_cargos [] = [] := by
  have hemp : view.isEmpty = false := by
    cases view with
    | nil => exact absurd rfl hne
    | cons a l => rfl
  have htop : top_cargos view =
      sortAscBySnd ((sortDescBySnd (groupMeanCargo view)).take 10) := by
    simp only [top_cargos, hemp, Bool.false_eq_true, if_false]
  have hlenG : (groupMeanCargo view).length
      = ((view.map Record.cargo).dedup).length := by
    simp only [groupMeanCargo, List.length_map, sortStrings]
    exact (List.perm_insertionSort strLe _).length_eq
  have hlenD : (sortDescBySnd (groupMeanCargo view)).length
      = ((view.map Record.cargo).dedup).length := by
    simp only [sortDescBySnd]
    rw [(List.perm_insertionSort bySndGE _).length_eq]
    exact hlenG
  have hsymm : ∀ {p q : String × ℚ}, p.1 ≠ q.1 → q.1 ≠ p.1 :=
    fun h => Ne.symm h
  refine ⟨?_, ?_, ?_, ?_, ?_, ?_, ?_, rfl⟩
  · rw [htop]
    have hlen : (sortAscBySnd ((sortDescBySnd (groupMeanCargo view)).take
        10)).length = ((sortDescBySnd (groupMeanCargo view)).take 10).length :=
      (List.perm_insertionSort bySndLE _).length_eq
    rw [hlen, List.length_take]
    exact min_le_left _ _
  · rw [htop]
    have hlen : (sortAscBySnd ((sortDescBySnd (groupMeanCargo view)).take
        10)).length = ((sortDescBySnd (groupMeanCargo view)).take 10).length :=
      (List.perm_insertionSort bySndLE _).length_eq
    rw [hlen, List.length_take, hlenD]
  · have hDpair : List.Pairwise (fun p q : String × ℚ => p.1 ≠ q.1)
        (sortDescBySnd (groupMeanCargo view)) := by
      simp only [sortDescBySnd]
      exact ((List.perm_insertionSort bySndGE _).pairwise_iff hsymm).mpr
        (pairwise_ne_groupMeanCargo view)
    have hTpair := List.Pairwise.sublist (List.take_sublist 10 _) hDpair
    rw [htop]
    exact ((List.perm_insertionSort bySndLE _).pairwise_iff hsymm).mpr hTpair
  · intro p hp
    rw [htop] at hp
    have h1 := (List.perm_insertionSort bySndLE _).mem_iff.mp hp
    have h2 := List.Sublist.mem h1 (List.take_sublist 10 _)
    have h3 := (List.perm_insertionSort bySndGE _).mem_iff.mp h2
    exact mem_groupMeanCargo h3
  · rw [htop]
    exact List.sorted_insertionSort bySndLE _
  · intro c hc hle
    have hDle : (sortDescBySnd (groupMeanCargo view)).length ≤ 10 := by
      rw [hlenD]
      exact hle
    have htake10 : (sortDescBySnd (groupMeanCargo view)).take 10
        = sortDescBySnd (groupMeanCargo view) := List.take_of_length_le hDle
    refine ⟨(c, meanUsd (view.filter (fun r => r.cargo == c))), ?_, rfl⟩
    rw [htop, htake10]
    exact (List.perm_insertionSort bySndLE _).mem_iff.mpr
      ((List.perm_insertionSort bySndGE _).mem_iff.mpr
        (groupMeanCargo_complete (List.mem_dedup.mp hc)))
  · intro c hc hnotin p hp
    have hGmem := groupMeanCargo_complete hc
    have hDmem : (c, meanUsd (view.filter (fun r => r.cargo == c)))
        ∈ sortDescBySnd (groupMeanCargo view) :=
      (List.perm_insertionSort bySndGE _).mem_iff.mpr hGmem
    have hTnot : (c, meanUsd (view.filter (fun r => r.cargo == c)))
        ∉ (sortDescBySnd (groupMeanCargo view)).take 10 := by
      intro hmem
      have hintop : (c, meanUsd (view.filter (fun r => r.cargo == c)))
          ∈ top_cargos view := by
        rw [htop]
        exact (List.perm_insertionSort bySndLE _).mem_iff.mpr hmem
      exact (hnotin _ hintop) rfl
    have hdropmem : (c, meanUsd (view.filter (fun r => r.cargo == c)))
        ∈ (sortDescBySnd (groupMeanCargo view)).drop 10 := by
      have hsplit := hDmem
      rw [← List.take_append_drop 10 (sortDescBySnd (groupMeanCargo view))]
        at hsplit
      rcases List.mem_append.mp hsplit with h1 | h1
      · exact absurd h1 hTnot
      · exact h1
    have hsortD : List.Pairwise bySndGE (sortDescBySnd (groupMeanCargo view)) :=
      List.sorted_insertionSort bySndGE _
    have hsortD2 : List.Pairwise bySndGE
        ((sortDescBySnd (groupMeanCargo view)).take 10 ++
          (sortDescBySnd (groupMeanCargo view)).drop 10) := by
      rw [List.take_append_drop]
      exact hsortD
    have hcross := (List.pairwise_append.mp hsortD2).2.2
    have hpT : p ∈ (sortDescBySnd (groupMeanCargo view)).take 10 := by
      rw [htop] at hp
      exact (List.perm_insertionSort bySndLE _).mem_iff.mp hp
    exact hcross p hpT _ hdropmem

theorem c7_top_cargos_largest_means_witness :
    sampleDf ≠ [] ∧ (top_cargos sampleDf).length ≤ 10 :=
  ⟨by decide, (c7_top_cargos_largest_means sampleDf (by decide)).1⟩

/-- First record of the spec's three-record scenario (only the role,
salary and country of each scenario record are specified there). -/
def scenarioUSA : Record :=
  { ano := 2025, senioridade := "", contrato := "", tamanho_empresa := "",
    cargo := "Data Scientist", usd := 100000, remoto := "",
    residencia_iso3 := "USA" }

/-- Second record of the spec's three-record scenario. -/
def scenarioBRA : Record :=
  { ano := 2025, senioridade := "", contrato := "", tamanho_empresa := "",
    cargo := "Data Scientist", usd := 120000, remoto := "",
    residencia_iso3 := "BRA" }

/-- Third record of the spec's three-record scenario. -/
def scenarioENG : Record :=
  { ano := 2025, senioridade := "", contrato := "", tamanho_empresa := "",
    cargo := "Engineer", usd := 90000, remoto := "",
    residencia_iso3 := "USA" }

/-- The three-record scenario view of the spec. -/
def scenarioView : List Record := [scenarioUSA, scenarioBRA, scenarioENG]

theorem meanUsd_singleton (r : Record) : meanUsd [r] = r.usd := by
  simp [meanUsd]

/-- C9: the per-country table is the mean of `usd` grouped by
`residencia_iso3` over exactly the Data-Scientist records of the view —
every entry is the mean for the country of some Data-Scientist record,
every Data-Scientist record's country appears, the table is empty when no
such record exists — and the spec's three-record scenario yields exactly
USA ↦ 100000 and BRA ↦ 120000. -/
theorem c9_media_pais_grouped_mean (view : List Record) :
    (∀ p ∈ media_pais view,
      (∃ r ∈ dsOnly view, r.residencia_iso3 = p.1) ∧
      p.2 = meanUsd ((dsOnly view).filter
        (fun r => r.residencia_iso3 == p.1))) ∧
    (∀ r ∈ dsOnly view, ∃ p ∈ media_pais view, p.1 = r.residencia_iso3) ∧
    (dsOnly view = [] → media_pais view = []) ∧
    (∀ p, p ∈ media_pais scenarioView ↔
      (p = ("USA", 100000) ∨ p = ("BRA", 120000))) := by
  refine ⟨?_, ?_, ?_, ?_⟩
  · intro p hp
    obtain ⟨c, hc, rfl⟩ := List.mem_map.mp hp
    refine ⟨?_, rfl⟩
    simp only [sortStrings] at hc
    have hc2 := List.mem_dedup.mp ((List.perm_insertionSort _ _).mem_iff.mp hc)
    obtain ⟨r, hr, hrc⟩ := List.mem_map.mp hc2
    exact ⟨r, hr, hrc⟩
  · intro r hr
    refine ⟨(r.residencia_iso3,
      meanUsd ((dsOnly view).filter
        (fun q => q.residencia_iso3 == r.residencia_iso3))), ?_, rfl⟩
    apply List.mem_map.mpr
    refine ⟨r.residencia_iso3, ?_, rfl⟩
    simp only [sortStrings]
    apply (List.perm_insertionSort _ _).mem_iff.mpr
    apply List.mem_dedup.mpr
    exact List.mem_map.mpr ⟨r, hr, rfl⟩
  · intro h
    simp [media_pais, h, sortStrings, List.insertionSort]
  · intro p
    have hkeys : sortStrings
        (((dsOnly scenarioView).map Record.residencia_iso3).dedup)
        = ["BRA", "USA"] := by decide
    have hfBRA : (dsOnly scenarioView).filter
        (fun r => r.residencia_iso3 == "BRA") = [scenarioBRA] := rfl
    have hfUSA : (dsOnly scenarioView).filter
        (fun r => r.residencia_iso3 == "USA") = [scenarioUSA] := rfl
    have hsc : media_pais scenarioView =
        [("BRA", 120000), ("USA", 100000)] := by
      rw [media_pais, hkeys]
      simp only [List.map_cons, List.map_nil]
      rw [hfBRA, hfUSA, meanUsd_singleton, meanUsd_singleton]
      rfl
    rw [hsc]
    constructor
    · intro hp
      rcases List.mem_cons.mp hp with h1 | h1
      · exact Or.inr h1
      · exact Or.inl (List.mem_singleton.mp h1)
    · rintro (h1 | h1)
      · rw [h1]
        exact List.mem_cons.mpr (Or.inr (List.mem_singleton.mpr rfl))
      · rw [h1]
        exact List.mem_cons_self _ _

theorem c9_media_pais_grouped_mean_witness :
    media_pais [] = [] :=
  (c9_media_pais_grouped_mean []).2.2.1 rfl
